import Mathlib

/-!
Shallow embedding of the Yeskala Time Planner (planner/views.py, planner/models.py).

Schedule blocks are JSON dicts produced by the model backend; we embed them as a
structure of optional fields (`none` models both a missing key and JSON null).
Python truthiness of a fetched value (`not block.get("start")`) is `optTruthy`.
String comparison `<` in the source is Python's lexicographic code-point order,
which coincides with Lean's `String.lt` instance.

`validate_schedule` in the source mutates the block dicts in place (the clamp
writes `block["start"]`), so after the call the *input* list holds the clamped
dicts.  The embedding `validate_go` therefore returns a pair: the input list as
it stands after the pass (first component) and the returned `valid` list
(second component).
-/

namespace Yeskala

/-- One schedule block, element of the model's "schedule" JSON array.
Fields are optional: `none` models a missing key or JSON null. -/
structure Block where
  start : Option String
  end_ : Option String
  task : Option String
  type : Option String
  importance : Option Int
  note : Option String
deriving DecidableEq, Inhabited

/-- Python truthiness of `dict.get(key)` for a string-valued key:
falsy when the key is absent, null, or the empty string. -/
def optTruthy : Option String → Bool
  | none => false
  | some s => !s.isEmpty

/-- A block passes the presence check of views.py line 288
(`if not block.get("start") or not block.get("end"): continue`). -/
def keep (b : Block) : Bool :=
  optTruthy b.start && optTruthy b.end_

/-- Python's `<` on strings: lexicographic by code point, on the character
lists.  Executable counterpart of Lean's `List.lt` on `Char`. -/
def ltChars : List Char → List Char → Bool
  | [], [] => false
  | [], _ :: _ => true
  | _ :: _, [] => false
  | a :: as, b :: bs => if a < b then true else if b < a then false else ltChars as bs

/-- Python's `s1 < s2` on strings. -/
def strLt (s1 s2 : String) : Bool :=
  ltChars s1.data s2.data

/-- The clamp guard of views.py line 291:
`if last_end and block["start"] < last_end`. -/
def clampCond (last_end : Option String) (st : Option String) : Bool :=
  match last_end, st with
  | some le, some s => !le.isEmpty && strLt s le
  | _, _ => false

/-- The loop of `validate_schedule` (views.py lines 287-296), carrying
`last_end`.  Returns (input list after in-place mutation, `valid` list). -/
def validate_go : Option String → List Block → List Block × List Block
  | _, [] => ([], [])
  | last_end, b :: rest =>
    if keep b then
      let b' := if clampCond last_end b.start then { b with start := last_end } else b
      (b' :: (validate_go b.end_ rest).1, b' :: (validate_go b.end_ rest).2)
    else
      (b :: (validate_go last_end rest).1, (validate_go last_end rest).2)

/-- `validate_schedule(schedule)` (views.py lines 283-298): the returned
`valid` list. -/
def validate_schedule (schedule : List Block) : List Block :=
  (validate_go none schedule).2

/-- The input list as it stands after `validate_schedule` returns: the
source mutates kept blocks' `start` in place, dropped blocks are untouched. -/
def mutated_input (schedule : List Block) : List Block :=
  (validate_go none schedule).1

/-- A block with the field the validator may overwrite (`start`) erased,
for comparing output blocks with their input originals. -/
def stripStart (b : Block) : Block :=
  { b with start := none }

/-- Zero-padded 24-hour "HH:MM" form (five characters, digits around a colon,
hour below 24, minute below 60). -/
def isHHMM (s : String) : Bool :=
  match s.toList with
  | [h1, h2, c, m1, m2] =>
    h1.isDigit && h2.isDigit && (c == ':') && m1.isDigit && m2.isDigit
      && decide (10 * (h1.toNat - 48) + (h2.toNat - 48) < 24)
      && decide (10 * (m1.toNat - 48) + (m2.toNat - 48) < 60)
  | _ => false

/-- Dates are abstract keys (the store is keyed by the unique `date` column). -/
abbrev Date := Nat

/-- Row of the DayLog table (models.py lines 5-30); timestamp columns are
omitted, no claim touches them.  Energy values are kept abstract as parsed
numbers (`PositiveSmallIntegerField(null=True)`). -/
structure DayLog where
  date : Date
  description : String
  schedule_json : List Block
  coach_note : String
  reflection_text : String
  energy_morning : Option Nat
  energy_afternoon : Option Nat
  energy_evening : Option Nat
deriving DecidableEq, Inhabited

/-- The DayLog table: `date` is `unique=True`, so the store is a partial map
keyed by date. -/
abbrev DayLogStore := Date → Option DayLog

/-- `DayLog.objects.update_or_create(date=today, defaults={...})`
(views.py lines 262-269): update the row for `today` if present, else create
one; `defaults` carries only description, schedule_json and coach_note, the
remaining columns take their model defaults on create. -/
def update_or_create (store : DayLogStore) (today : Date) (description : String)
    (schedule_json : List Block) (coach_note : String) : DayLogStore :=
  fun d =>
    if d = today then
      match store today with
      | some log =>
        some { log with description := description, schedule_json := schedule_json,
                        coach_note := coach_note }
      | none =>
        some { date := today, description := description, schedule_json := schedule_json,
               coach_note := coach_note, reflection_text := "", energy_morning := none,
               energy_afternoon := none, energy_evening := none }
    else store d

/-- POST branch of `reflection_view` (views.py lines 311-326): if no DayLog
exists for today, redirect without touching the store (Bool `false`);
otherwise overwrite the reflection and energy columns of today's row and
save (Bool `true`).  Energy inputs arrive already parsed; the `int(...)`
conversion of the falsy-to-None form values is abstracted. -/
def reflection_post (store : DayLogStore) (today : Date) (reflection_text : String)
    (em ea en : Option Nat) : DayLogStore × Bool :=
  match store today with
  | none => (store, false)
  | some log =>
    (fun d =>
      if d = today then
        some { log with reflection_text := reflection_text, energy_morning := em,
                        energy_afternoon := ea, energy_evening := en }
      else store d, true)

/-- Python `value or None` on an optional form string: empty collapses to
None (views.py lines 341-349). -/
def orNone : Option String → Option String
  | none => none
  | some s => if s.isEmpty then none else some s

/-- The UserPreferences row as the preferences view writes it
(models.py lines 32-75): the view assigns raw form strings, numeric coercion
at save time is outside the claims. -/
structure UserPreferences where
  preferred_sleep_time : Option String
  preferred_wake_time : Option String
  max_study_hours : Option String
  break_frequency_minutes : Option String
  preferred_focus_period : Option String
  study_style : Option String
  stress_sensitivity : Option String
  plays_sport : Bool
deriving DecidableEq, Inhabited

/-- The submitted preferences form: each field is `none` when absent from the
POST body, `some s` when submitted with value `s`. -/
structure PrefForm where
  sleep_time : Option String
  wake_time : Option String
  max_study_hours : Option String
  break_frequency : Option String
  focus_period : Option String
  study_style : Option String
  stress_sensitivity : Option String
  plays_sport : Option String
deriving DecidableEq, Inhabited

/-- POST branch of `preferences_view` (views.py lines 339-353): every column
is reassigned from the form; `x or None` for the optional fields,
`bool(request.POST.get("plays_sport"))` for the flag. -/
def preferences_post (_prefs : UserPreferences) (form : PrefForm) : UserPreferences :=
  { preferred_sleep_time := orNone form.sleep_time,
    preferred_wake_time := orNone form.wake_time,
    max_study_hours := orNone form.max_study_hours,
    break_frequency_minutes := orNone form.break_frequency,
    preferred_focus_period := orNone form.focus_period,
    study_style := orNone form.study_style,
    stress_sensitivity := orNone form.stress_sensitivity,
    plays_sport := optTruthy form.plays_sport }

/-- Python `str.replace(old, new)` for a one-character pattern: every
occurrence replaced, left to right. -/
def replaceChar (c : Char) (repl : List Char) : List Char → List Char
  | [] => []
  | a :: as => if a = c then repl ++ replaceChar c repl as else a :: replaceChar c repl as

/-- ICS text escaping of a block note (views.py lines 428-433): backslash,
newline, comma, semicolon, replaced in that order; all four patterns are
single characters. -/
def icsEscape (note : String) : String :=
  ⟨replaceChar ';' ['\\', ';']
    (replaceChar ',' ['\\', ',']
      (replaceChar '\n' ['\\', 'n']
        (replaceChar '\\' ['\\', '\\'] note.data)))⟩

/-- Python `s.split(":")` on the character list. -/
def splitOnColon : List Char → List (List Char)
  | [] => [[]]
  | c :: cs =>
    if c = ':' then [] :: splitOnColon cs
    else
      match splitOnColon cs with
      | h :: t => (c :: h) :: t
      | [] => [[c]]

/-- Python `int(field)` on a split fragment: a nonempty digit string, else
ValueError.  Signs and surrounding whitespace accepted by Python's int()
are outside the inputs the claims use. -/
def parseDecimal (cs : List Char) : Option Nat :=
  if cs = [] then none
  else if cs.all (fun c => c.isDigit) then
    some (cs.foldl (fun n c => 10 * n + (c.toNat - 48)) 0)
  else none

/-- Parse "HH:MM" as `sh, sm = map(int, s.split(":"))` does (views.py lines
407-408): exactly two colon-separated decimal fields, anything else raises
ValueError, which the caller catches by skipping the block. -/
def parseHM (s : String) : Option (Nat × Nat) :=
  match splitOnColon s.data with
  | [h, m] =>
    match parseDecimal h, parseDecimal m with
    | some hh, some mm => some (hh, mm)
    | _, _ => none
  | _ => none

/-- Two-digit zero padding, as strftime "%H%M%S" renders time components. -/
def pad2 (n : Nat) : String :=
  if n < 10 then "0" ++ toString n else toString n

/-- VEVENT lines emitted for one block by `export_ics` (views.py lines
398-436).  `todayCompact` is today's "%Y%m%d" rendering, `nowStamp` the
formatted DTSTAMP value. -/
def blockEventLines (todayCompact nowStamp : String) (idx : Nat) (block : Block) :
    List String :=
  if !(optTruthy block.start) || !(optTruthy block.end_) then []
  else
    match parseHM (block.start.getD ""), parseHM (block.end_.getD "") with
    | some (sh, sm), some (eh, emin) =>
      (["BEGIN:VEVENT",
        "UID:" ++ todayCompact ++ "-" ++ toString idx ++ "@yeskala",
        "DTSTAMP:" ++ nowStamp,
        "DTSTART:" ++ todayCompact ++ "T" ++ pad2 sh ++ pad2 sm ++ "00",
        "DTEND:" ++ todayCompact ++ "T" ++ pad2 eh ++ pad2 emin ++ "00",
        "SUMMARY:" ++ block.task.getD "Block"]
       ++ (match block.note with
           | some n => if n.isEmpty then [] else ["DESCRIPTION:" ++ icsEscape n]
           | none => [])
       ++ ["END:VEVENT"])
    | _, _ => []

/-- The full .ics line list produced by `export_ics` for a stored schedule
(views.py lines 384-438). -/
def export_ics_lines (todayCompact nowStamp : String) (schedule : List Block) :
    List String :=
  ["BEGIN:VCALENDAR", "VERSION:2.0", "PRODID:-//Yeskala//AI Time Planner//EN",
   "CALSCALE:GREGORIAN", "METHOD:PUBLISH"]
  ++ (schedule.enum.map (fun p => blockEventLines todayCompact nowStamp p.1 p.2)).flatten
  ++ ["END:VCALENDAR"]

/-- `data.get("schedule", [])` followed by the list check of
`call_openai_schedule` (views.py lines 160-162): an absent or non-list value
collapses to the empty list. -/
def coerce_schedule : Option (List Block) → List Block
  | none => []
  | some l => l

/-- Success path of the planner POST after the model responds (views.py lines
255-269): validate, and either report the empty-schedule error leaving the
store alone, or upsert today's DayLog.  Second component is the user-facing
error, `none` on success. -/
def planner_generate (store : DayLogStore) (today : Date) (description : String)
    (raw_schedule : Option (List Block)) (coach_note : String) :
    DayLogStore × Option String :=
  let schedule := validate_schedule (coerce_schedule raw_schedule)
  if schedule.isEmpty then
    (store, some "AI did not return any schedule blocks.")
  else
    (update_or_create store today description schedule coach_note, none)

/-- The block of the calendar-export example: start 14:00, end 15:00,
task "Focus", note "a,b;c". -/
def focusBlock : Block :=
  { start := some "14:00", end_ := some "15:00", task := some "Focus",
    type := some "task", importance := some 2, note := some "a,b;c" }

/-- An optional field whose value, when present, is a zero-padded "HH:MM"
string. -/
def presentHHMM : Option String → Bool
  | none => true
  | some t => isHHMM t

/-- Block with given start and end and no other fields, for concrete tests. -/
def mkBlock (s e : Option String) : Block :=
  { start := s, end_ := e, task := none, type := none, importance := none, note := none }

/-- Characterisation of lists the validator pass leaves untouched: every
block passes the presence check and no clamp fires along the carried
`last_end`. -/
def noClampFrom : Option String → List Block → Prop
  | _, [] => True
  | last_end, b :: rest =>
    keep b = true ∧ clampCond last_end b.start = false ∧ noClampFrom b.end_ rest

/-- A concrete DayLog row with reflection data already recorded. -/
def sampleLog : DayLog :=
  { date := 0, description := "old text", schedule_json := [mkBlock (some "09:00") (some "10:00")],
    coach_note := "old note", reflection_text := "went well", energy_morning := some 7,
    energy_afternoon := some 5, energy_evening := some 4 }

/-- A concrete store holding `sampleLog` at date 0 and nothing else. -/
def sampleStore : DayLogStore :=
  fun d => if d = 0 then some sampleLog else none

/-- A concrete preferences row with every field populated. -/
def samplePrefs : UserPreferences :=
  { preferred_sleep_time := some "23:00", preferred_wake_time := some "07:00",
    max_study_hours := some "6", break_frequency_minutes := some "45",
    preferred_focus_period := some "morning", study_style := some "pomodoro",
    stress_sensitivity := some "low", plays_sport := true }

/-- A concrete submission leaving most fields absent or empty. -/
def sampleForm : PrefForm :=
  { sleep_time := some "", wake_time := none, max_study_hours := some "",
    break_frequency := none, focus_period := some "", study_style := none,
    stress_sensitivity := some "", plays_sport := some "" }

end Yeskala

namespace Yeskala

/-- Python string comparison is irreflexive on character lists. -/
theorem ltChars_self (as : List Char) : ltChars as as = false := by
  induction as with
  | nil => rfl
  | cons a as ih => simp [ltChars, ih]

/-- Python string comparison is irreflexive. -/
theorem strLt_self (s : String) : strLt s s = false :=
  ltChars_self s.data

/-- Nothing compares below the empty character list. -/
theorem ltChars_nil (as : List Char) : ltChars as [] = false := by
  cases as <;> rfl

/-- Nothing compares below the empty string. -/
theorem strLt_empty (s : String) : strLt s "" = false :=
  ltChars_nil s.data

/-- Inversion of a fired clamp guard: `last_end` is a nonempty string and
the block's start compares below it. -/
theorem clampCond_eq_true {last_end st : Option String} (h : clampCond last_end st = true) :
    ∃ le s, last_end = some le ∧ st = some s ∧ le.isEmpty = false ∧ strLt s le = true := by
  cases last_end with
  | none => simp [clampCond] at h
  | some le =>
    cases st with
    | none => simp [clampCond] at h
    | some s =>
      simp only [clampCond, Bool.and_eq_true, Bool.not_eq_true'] at h
      exact ⟨le, s, rfl, rfl, h.1, h.2⟩

/-- A block passing the presence check has a nonempty start string. -/
theorem keep_start {b : Block} (h : keep b = true) :
    ∃ st, b.start = some st ∧ st.isEmpty = false := by
  cases hs : b.start with
  | none => simp [keep, optTruthy, hs] at h
  | some st =>
    refine ⟨st, rfl, ?_⟩
    simp only [keep, hs, optTruthy, Bool.and_eq_true, Bool.not_eq_true'] at h
    exact h.1

/-- A block passing the presence check has a nonempty end string. -/
theorem keep_end {b : Block} (h : keep b = true) :
    ∃ en, b.end_ = some en ∧ en.isEmpty = false := by
  cases hs : b.end_ with
  | none => simp [keep, optTruthy, hs] at h
  | some en =>
    refine ⟨en, rfl, ?_⟩
    simp only [keep, hs, optTruthy, Bool.and_eq_true, Bool.not_eq_true'] at h
    exact h.2

/-- Loop invariant of the validator: the returned list is ordered (no kept
block starts before its predecessor's end) and its first block does not
start before the carried `last_end`. -/
theorem validate_go_chain (s : List Block) : ∀ last_end : Option String,
    List.Chain' (fun A B => strLt (B.start.getD "") (A.end_.getD "") = false)
      (validate_go last_end s).2 ∧
    ∀ b ∈ ((validate_go last_end s).2).head?,
      strLt (b.start.getD "") (last_end.getD "") = false := by
  induction s with
  | nil => intro last_end; simp [validate_go]
  | cons b rest ih =>
    intro last_end
    by_cases hk : keep b = true
    · by_cases hc : clampCond last_end b.start = true
      · obtain ⟨le, st, hle, hst, hlee, hslt⟩ := clampCond_eq_true hc
        subst hle
        constructor
        · simp only [validate_go, hk, hc, if_true]
          rw [List.chain'_cons']
          refine ⟨?_, (ih b.end_).1⟩
          intro y hy
          simpa using (ih b.end_).2 y hy
        · simp only [validate_go, hk, hc, if_true]
          intro y hy
          simp only [List.head?_cons, Option.mem_def, Option.some.injEq] at hy
          subst hy
          simpa using strLt_self le
      · constructor
        · simp only [validate_go, hk, hc, if_true, if_false]
          rw [List.chain'_cons']
          refine ⟨?_, (ih b.end_).1⟩
          intro y hy
          simpa using (ih b.end_).2 y hy
        · simp only [validate_go, hk, hc, if_true, if_false]
          intro y hy
          simp only [List.head?_cons, Option.mem_def, Option.some.injEq] at hy
          subst hy
          obtain ⟨st, hst, hstne⟩ := keep_start hk
          cases last_end with
          | none => simpa [hst] using strLt_empty st
          | some le =>
            by_cases hle : le.isEmpty = true
            · have : le = "" := (String.isEmpty_iff le).mp hle
              subst this
              simpa [hst] using strLt_empty st
            · have hle' : le.isEmpty = false := by
                cases h : le.isEmpty
                · rfl
                · exact absurd h hle
              simp only [clampCond, hst, hle', Bool.not_false, Bool.true_and] at hc
              have : strLt st le = false := by
                cases h : strLt st le
                · rfl
                · exact absurd h hc
              simpa [hst] using this
    · have hk' : keep b = false := by
        cases h : keep b
        · rfl
        · exact absurd h hk
      constructor
      · simp only [validate_go, hk', if_false, Bool.false_eq_true]
        exact (ih last_end).1
      · simp only [validate_go, hk', if_false, Bool.false_eq_true]
        exact (ih last_end).2

end Yeskala

namespace Yeskala

/-- C1: for every input sequence of blocks whose present start/end values are
zero-padded "HH:MM" strings, every adjacent pair (A, B) of the sequence
returned by validate_schedule satisfies B.start >= A.end under lexicographic
string comparison (strLt is the embedded Python string `<`; the property in
fact needs no shape assumption on the strings). -/
theorem validate_schedule_adjacent_ordered (s : List Block)
    (_h : ∀ b ∈ s, presentHHMM b.start = true ∧ presentHHMM b.end_ = true) :
    List.Chain' (fun A B => strLt (B.start.getD "") (A.end_.getD "") = false)
      (validate_schedule s) :=
  (validate_go_chain s none).1

/-- Closed instance of the adjacent-order theorem on a two-block overlap. -/
theorem validate_schedule_adjacent_ordered_witness :
    (∀ b ∈ [mkBlock (some "09:00") (some "10:00"), mkBlock (some "09:30") (some "11:00")],
        presentHHMM b.start = true ∧ presentHHMM b.end_ = true) ∧
    List.Chain' (fun A B => strLt (B.start.getD "") (A.end_.getD "") = false)
      (validate_schedule
        [mkBlock (some "09:00") (some "10:00"), mkBlock (some "09:30") (some "11:00")]) :=
  ⟨by decide, validate_schedule_adjacent_ordered _ (by decide)⟩

/-- C2: on the four-block example input, validate_schedule drops the block
with the missing end without advancing last_end, clamps the second block's
start from "09:30" to "10:00" and the fourth block's start to "11:00". -/
theorem validate_schedule_example :
    validate_schedule
      [mkBlock (some "09:00") (some "10:00"), mkBlock (some "09:30") (some "11:00"),
       mkBlock (some "ignore") none, mkBlock (some "10:30") (some "12:00")] =
      [mkBlock (some "09:00") (some "10:00"), mkBlock (some "10:00") (some "11:00"),
       mkBlock (some "11:00") (some "12:00")] := by
  decide

/-- A fired clamp rewrites the start to a value that still passes the
presence check, so clamping never changes which blocks are kept. -/
theorem keep_clamped {b : Block} {last_end : Option String}
    (hk : keep b = true) (hc : clampCond last_end b.start = true) :
    keep { b with start := last_end } = true := by
  obtain ⟨le, st, hle, hst, hlee, _⟩ := clampCond_eq_true hc
  obtain ⟨en, hen, henne⟩ := keep_end hk
  subst hle
  simp [keep, optTruthy, hen, hlee, henne]

/-- The clamp never touches any field but `start`. -/
theorem stripStart_clamped (b : Block) (last_end : Option String) :
    stripStart { b with start := last_end } = stripStart b := by
  simp [stripStart]

/-- Loop invariant of the validator: the returned list is exactly the
presence-filter of the mutated input list, and, start fields erased, exactly
the presence-filter of the original input. -/
theorem validate_go_filter (s : List Block) : ∀ last_end : Option String,
    (validate_go last_end s).2 = ((validate_go last_end s).1).filter keep ∧
    ((validate_go last_end s).2).map stripStart = (s.filter keep).map stripStart := by
  induction s with
  | nil => intro last_end; simp [validate_go]
  | cons b rest ih =>
    intro last_end
    by_cases hk : keep b = true
    · by_cases hc : clampCond last_end b.start = true
      · have hkeep' := keep_clamped hk hc
        constructor
        · simp only [validate_go, hk, hc, if_true]
          rw [List.filter_cons_of_pos hkeep']
          rw [(ih b.end_).1]
        · simp only [validate_go, hk, hc, if_true]
          rw [List.filter_cons_of_pos hk]
          simp only [List.map_cons, stripStart_clamped]
          rw [(ih b.end_).2]
      · constructor
        · simp only [validate_go, hk, hc, if_true, Bool.false_eq_true, if_false]
          rw [List.filter_cons_of_pos hk]
          rw [(ih b.end_).1]
        · simp only [validate_go, hk, hc, if_true, Bool.false_eq_true, if_false]
          rw [List.filter_cons_of_pos hk]
          simp only [List.map_cons]
          rw [(ih b.end_).2]
    · have hk' : keep b = false := by
        cases h : keep b
        · rfl
        · exact absurd h hk
      constructor
      · simp only [validate_go, hk', if_false, Bool.false_eq_true]
        rw [List.filter_cons_of_neg (by simp [hk'])]
        exact (ih last_end).1
      · simp only [validate_go, hk', if_false, Bool.false_eq_true]
        rw [List.filter_cons_of_neg (by simp [hk'])]
        exact (ih last_end).2

/-- C3: the validator's output is the presence-filter of the (in-place
mutated) input list — hence an order-preserving subsequence of it with no
duplication and no new blocks — and, up to the clamped start field, it is
exactly the blocks of the original input that have a truthy start and a
truthy end, each exactly once. -/
theorem validate_schedule_subsequence (s : List Block) :
    validate_schedule s = (mutated_input s).filter keep ∧
    (validate_schedule s).Sublist (mutated_input s) ∧
    (validate_schedule s).map stripStart = (s.filter keep).map stripStart := by
  have h := validate_go_filter s none
  refine ⟨h.1, ?_, h.2⟩
  show ((validate_go none s).2).Sublist ((validate_go none s).1)
  rw [h.1]
  exact List.filter_sublist _

end Yeskala

namespace Yeskala

/-- Every list the validator returns satisfies `noClampFrom` for the
`last_end` it was produced under. -/
theorem validate_go_noClamp (s : List Block) : ∀ last_end : Option String,
    noClampFrom last_end (validate_go last_end s).2 := by
  induction s with
  | nil => intro last_end; simp [validate_go, noClampFrom]
  | cons b rest ih =>
    intro last_end
    by_cases hk : keep b = true
    · by_cases hc : clampCond last_end b.start = true
      · obtain ⟨le, st, hle, hst, hlee, _⟩ := clampCond_eq_true hc
        subst hle
        simp only [validate_go, hk, hc, if_true]
        refine ⟨keep_clamped hk hc, ?_, ih b.end_⟩
        simp [clampCond, strLt_self]
      · have hc' : clampCond last_end b.start = false := by
          cases h : clampCond last_end b.start
          · rfl
          · exact absurd h hc
        simp only [validate_go, hk, hc', Bool.false_eq_true, if_false, if_true]
        exact ⟨hk, hc', ih b.end_⟩
    · have hk' : keep b = false := by
        cases h : keep b
        · rfl
        · exact absurd h hk
      simp only [validate_go, hk', Bool.false_eq_true, if_false]
      exact ih last_end

/-- A list satisfying `noClampFrom` is a fixed point of the validator pass:
nothing is dropped and nothing is clamped. -/
theorem noClamp_fixed (s : List Block) : ∀ last_end : Option String,
    noClampFrom last_end s → validate_go last_end s = (s, s) := by
  induction s with
  | nil => intro last_end _; rfl
  | cons b rest ih =>
    intro last_end h
    obtain ⟨hk, hc, hrest⟩ := h
    simp only [validate_go, hk, hc, Bool.false_eq_true, if_false, if_true]
    rw [ih b.end_ hrest]

/-- C4: validate_schedule is idempotent — applied to its own output it
returns that output unchanged (no block dropped, no start clamped). -/
theorem validate_schedule_idempotent (s : List Block) :
    validate_schedule (validate_schedule s) = validate_schedule s := by
  have h := noClamp_fixed (validate_schedule s) none (validate_go_noClamp s none)
  show (validate_go none (validate_schedule s)).2 = validate_schedule s
  rw [h]

/-- Mapping a projection unaffected by `stripStart` over the validator's
output agrees with mapping it over the presence-filter of the input. -/
theorem validate_map_field {α : Type} (f : Block → α) (hf : ∀ b, f (stripStart b) = f b)
    (s : List Block) : (validate_schedule s).map f = (s.filter keep).map f := by
  have key : ∀ l : List Block, l.map f = (l.map stripStart).map f := by
    intro l
    rw [List.map_map]
    exact (List.map_congr_left fun b _ => (hf b).symm)
  have hstrip : (validate_schedule s).map stripStart = (s.filter keep).map stripStart :=
    (validate_go_filter s none).2
  rw [key (validate_schedule s), hstrip, ← key (s.filter keep)]

/-- C5: the validator modifies at most the start field of a retained block —
the output has exactly one block per input block with truthy start and end
(blocks whose end precedes their start included, uncorrected), and its end,
task, type, importance and note fields equal those of the corresponding
input block position by position. -/
theorem validate_schedule_frame (s : List Block) :
    (validate_schedule s).length = (s.filter keep).length ∧
    (validate_schedule s).map Block.end_ = (s.filter keep).map Block.end_ ∧
    (validate_schedule s).map Block.task = (s.filter keep).map Block.task ∧
    (validate_schedule s).map Block.type = (s.filter keep).map Block.type ∧
    (validate_schedule s).map Block.importance = (s.filter keep).map Block.importance ∧
    (validate_schedule s).map Block.note = (s.filter keep).map Block.note := by
  have hend := validate_map_field Block.end_ (fun b => rfl) s
  refine ⟨?_, hend, validate_map_field Block.task (fun b => rfl) s,
      validate_map_field Block.type (fun b => rfl) s,
      validate_map_field Block.importance (fun b => rfl) s,
      validate_map_field Block.note (fun b => rfl) s⟩
  have := congrArg List.length hend
  simpa using this

end Yeskala

namespace Yeskala

/-- C6: upserting a plan for a date that already has a DayLog row overwrites
only description, schedule_json and coach_note; the reflection_text and the
three energy fields keep their stored values, and every other date's row is
untouched (the store stays a map keyed by the unique date). -/
theorem daylog_upsert_preserves_reflection (store : DayLogStore) (today : Date)
    (log : DayLog) (h : store today = some log)
    (description : String) (schedule_json : List Block) (coach_note : String) :
    (∃ L, update_or_create store today description schedule_json coach_note today = some L ∧
        L.description = description ∧ L.schedule_json = schedule_json ∧
        L.coach_note = coach_note ∧
        L.reflection_text = log.reflection_text ∧
        L.energy_morning = log.energy_morning ∧
        L.energy_afternoon = log.energy_afternoon ∧
        L.energy_evening = log.energy_evening) ∧
    ∀ d, d ≠ today → update_or_create store today description schedule_json coach_note d = store d := by
  constructor
  · have hval : update_or_create store today description schedule_json coach_note today = some ({ log with description := description, schedule_json := schedule_json, coach_note := coach_note }) := by
      simp [update_or_create, h]
    exact ⟨_, hval, rfl, rfl, rfl, rfl, rfl, rfl, rfl⟩
  · intro d hd
    simp [update_or_create, hd]

/-- Closed instance of the upsert frame theorem on a stored sample row. -/
theorem daylog_upsert_preserves_reflection_witness :
    sampleStore 0 = some sampleLog ∧
    ((∃ L, update_or_create sampleStore 0 "new" [] "coach" 0 = some L ∧
        L.description = "new" ∧ L.schedule_json = [] ∧ L.coach_note = "coach" ∧
        L.reflection_text = sampleLog.reflection_text ∧
        L.energy_morning = sampleLog.energy_morning ∧
        L.energy_afternoon = sampleLog.energy_afternoon ∧
        L.energy_evening = sampleLog.energy_evening) ∧
      ∀ d, d ≠ 0 → update_or_create sampleStore 0 "new" [] "coach" d = sampleStore d) :=
  ⟨rfl, daylog_upsert_preserves_reflection sampleStore 0 sampleLog rfl "new" [] "coach"⟩

/-- C7: submitting a reflection for a date with no DayLog row changes
nothing — the handler takes the redirect path (flag false) and returns the
store exactly as it was, creating and modifying no row. -/
theorem reflection_post_notfound (store : DayLogStore) (today : Date)
    (reflection_text : String) (em ea en : Option Nat) (h : store today = none) :
    reflection_post store today reflection_text em ea en = (store, false) := by
  simp [reflection_post, h]

/-- Closed instance of the reflection not-found theorem on the empty store. -/
theorem reflection_post_notfound_witness :
    (fun _ => none : DayLogStore) 0 = none ∧
    reflection_post (fun _ => none) 0 "tired" (some 3) none none =
      ((fun _ => none : DayLogStore), false) :=
  ⟨rfl, reflection_post_notfound (fun _ => none) 0 "tired" (some 3) none none rfl⟩

/-- C8: a preferences submission overwrites every field from the form alone —
the result does not depend on the previous row, and a field absent or empty
in the submission comes out null (plays_sport comes out false). -/
theorem preferences_overwrite_all (p q : UserPreferences) (form : PrefForm) :
    preferences_post p form = preferences_post q form ∧
    ((form.sleep_time = none ∨ form.sleep_time = some "") →
      (preferences_post p form).preferred_sleep_time = none) ∧
    ((form.wake_time = none ∨ form.wake_time = some "") →
      (preferences_post p form).preferred_wake_time = none) ∧
    ((form.max_study_hours = none ∨ form.max_study_hours = some "") →
      (preferences_post p form).max_study_hours = none) ∧
    ((form.break_frequency = none ∨ form.break_frequency = some "") →
      (preferences_post p form).break_frequency_minutes = none) ∧
    ((form.focus_period = none ∨ form.focus_period = some "") →
      (preferences_post p form).preferred_focus_period = none) ∧
    ((form.study_style = none ∨ form.study_style = some "") →
      (preferences_post p form).study_style = none) ∧
    ((form.stress_sensitivity = none ∨ form.stress_sensitivity = some "") →
      (preferences_post p form).stress_sensitivity = none) ∧
    ((form.plays_sport = none ∨ form.plays_sport = some "") →
      (preferences_post p form).plays_sport = false) := by
  refine ⟨rfl, ?_, ?_, ?_, ?_, ?_, ?_, ?_, ?_⟩ <;>
    rintro (h | h) <;> simp [preferences_post, orNone, optTruthy, h] <;> rfl

/-- Closed instance of the preferences overwrite theorem: a populated row
updated from a mostly empty form loses every field. -/
theorem preferences_overwrite_all_witness :
    preferences_post samplePrefs sampleForm = preferences_post default sampleForm ∧
    (preferences_post samplePrefs sampleForm).preferred_sleep_time = none ∧
    (preferences_post samplePrefs sampleForm).preferred_wake_time = none ∧
    (preferences_post samplePrefs sampleForm).max_study_hours = none ∧
    (preferences_post samplePrefs sampleForm).plays_sport = false := by
  have h := preferences_overwrite_all samplePrefs default sampleForm
  exact ⟨h.1, h.2.1 (Or.inr rfl), h.2.2.1 (Or.inl rfl), h.2.2.2.1 (Or.inr rfl),
    h.2.2.2.2.2.2.2.2 (Or.inr rfl)⟩

end Yeskala

namespace Yeskala

/-- C9: exporting a schedule holding the block start "14:00", end "15:00",
task "Focus", note "a,b;c" yields a VEVENT whose DESCRIPTION line carries
the note with comma and semicolon backslash-escaped (escaping applied as
backslash, newline, comma, semicolon in that order) and whose SUMMARY line
carries the task name unescaped. -/
theorem export_ics_escapes_note :
    export_ics_lines "20260101" "20260101T000000" [focusBlock] =
      ["BEGIN:VCALENDAR", "VERSION:2.0", "PRODID:-//Yeskala//AI Time Planner//EN",
       "CALSCALE:GREGORIAN", "METHOD:PUBLISH",
       "BEGIN:VEVENT", "UID:20260101-0@yeskala", "DTSTAMP:20260101T000000",
       "DTSTART:20260101T140000", "DTEND:20260101T150000", "SUMMARY:Focus",
       "DESCRIPTION:a\\,b\\;c", "END:VEVENT", "END:VCALENDAR"] ∧
    icsEscape "a,b;c" = "a\\,b\\;c" := by
  decide

/-- C10: when the validated schedule comes out empty — the raw value was not
a list (or absent), or every block was dropped for a missing start or end —
the planner POST leaves the DayLog store untouched and reports the
empty-schedule error message. -/
theorem planner_empty_schedule_no_write (store : DayLogStore) (today : Date)
    (description : String) (raw_schedule : Option (List Block)) (coach_note : String)
    (h : validate_schedule (coerce_schedule raw_schedule) = []) :
    planner_generate store today description raw_schedule coach_note =
      (store, some "AI did not return any schedule blocks.") := by
  simp [planner_generate, h]

/-- Closed instance of the empty-schedule theorem: a single block with a
missing end validates to nothing and nothing is stored. -/
theorem planner_empty_schedule_no_write_witness :
    validate_schedule (coerce_schedule (some [mkBlock (some "ignore") none])) = [] ∧
    planner_generate (fun _ => none) 0 "my day" (some [mkBlock (some "ignore") none]) "note" =
      ((fun _ => none : DayLogStore), some "AI did not return any schedule blocks.") :=
  ⟨by decide,
    planner_empty_schedule_no_write (fun _ => none) 0 "my day"
      (some [mkBlock (some "ignore") none]) "note" (by decide)⟩

end Yeskala
